import Mathlib

/-!
Verification development for the Trapezohe companion daemon.

This file gives a shallow embedding, in Lean 4, of the parts of the
companion's JavaScript source that the specification's claims are about:

* the permission-policy command analyzer (`src/runtime.mjs`:
  `enforceCommandPolicy`, `looksLikePath`, `maybePathCandidates`,
  `shellTokenize`, `stripQuotes`, `normalizeCandidateToAbsolute`),
* the path helpers (`src/permission-policy.mjs`: `isPathWithinRoots`,
  `normalizePermissionPolicy`) together with a model of Node's POSIX
  `path.resolve` / `path.relative`,
* the HTTP control plane's authorization pipeline and route table
  (`src/server.mjs`: `isLoopback`, `safeTokenCompare`, `isAuthRateLimited`,
  `authorize`, and the dispatch order of `createCompanionServer`),
* the one-shot command result shaping (`src/runtime.mjs`: `runCommand`),
* the session-event log (`src/runtime.mjs`: `emitSessionExited`,
  `listSessionEvents`, `cleanupAllSessions`),
* the run store (`src/run-store.mjs`: `normalizeRun`, `updateRun`),
* the approval store (`src/run-store.mjs` bundle: `resolveApproval`,
  `expireOverdueApprovals`),
* the cron store (`addPendingRun`), and
* the on-disk write plans of the four persistent stores.

JavaScript strings are modelled as Lean `String`s processed character-wise
(`String.data`); all inputs of interest are ASCII, where JavaScript string
indexing and Lean character lists agree.  Machine time (`Date.now()`) is an
explicit `Nat` parameter.  Mutable module state is passed explicitly.
-/

namespace Companion

/-! ## Character and string helpers

JavaScript string primitives, re-implemented over `String.data` so that all
definitions compute by kernel reduction.  `Char.isWhitespace` stands in for
the regex class `\s`, and `Char.isAlpha`/`Char.isDigit` for the ASCII ranges
used by the source's regexes; the commands and paths in question are ASCII.
-/

/-- Character used for double quotes (written via its code point). -/
def dquote : Char := Char.ofNat 34

/-- Character used for single quotes (written via its code point). -/
def squote : Char := Char.ofNat 39

/-- Character used for backticks (written via its code point). -/
def btick : Char := Char.ofNat 96

/-- JavaScript `s.startsWith(p)`. -/
def strStartsWith (s p : String) : Bool := p.data.isPrefixOf s.data

/-- JavaScript `s.endsWith(p)`. -/
def strEndsWith (s p : String) : Bool := p.data.reverse.isPrefixOf s.data.reverse

/-- Whether a string contains a given character (`s.includes(c)`). -/
def strContainsChar (s : String) (c : Char) : Bool := s.data.contains c

/-- Whether `needle` occurs as a contiguous run inside `hay`. -/
def listInfixOf (needle : List Char) : List Char → Bool
  | [] => needle.isPrefixOf []
  | c :: rest => needle.isPrefixOf (c :: rest) || listInfixOf needle rest

/-- JavaScript `s.includes(sub)`. -/
def strContainsSub (s sub : String) : Bool := listInfixOf sub.data s.data

/-- JavaScript `s.toLowerCase()` (ASCII). -/
def strToLower (s : String) : String := String.mk (s.data.map Char.toLower)

/-- JavaScript `s.trim()`. -/
def strTrim (s : String) : String :=
  String.mk (((s.data.dropWhile Char.isWhitespace).reverse.dropWhile Char.isWhitespace).reverse)

/-- JavaScript `s.trimEnd()`. -/
def strTrimEnd (s : String) : String :=
  String.mk ((s.data.reverse.dropWhile Char.isWhitespace).reverse)

/-- JavaScript `s.slice(0, n)` for `n ≥ 0`. -/
def strTake (s : String) (n : Nat) : String := String.mk (s.data.take n)

/-- JavaScript `s.slice(n)` for `n ≥ 0`. -/
def strDrop (s : String) (n : Nat) : String := String.mk (s.data.drop n)

/-- JavaScript `s.slice(1, -1)`: drop the first and last character. -/
def strDropEnds (s : String) : String := String.mk ((s.data.drop 1).dropLast)

/-- String length in characters (JavaScript `s.length` for ASCII data). -/
def strLen (s : String) : Nat := s.data.length

/-- First index of a character, JavaScript `s.indexOf(c)` as an `Option`. -/
def strIdxOfChar (s : String) (c : Char) : Option Nat := s.data.findIdx? (· == c)

/-! ## POSIX path model

Node's `path.resolve` and `path.relative` restricted to POSIX semantics and
to absolute base directories, which is how every call site in the source
uses them (the daemon's `cwd`, home directory, and the config dir are all
absolute).  A path is a `/`-separated string; `..` pops a segment (staying
at the root when empty) and `.`/empty segments vanish.
-/

/-- Split a character list on a separator character (JavaScript `split`). -/
def splitOnCharL (sep : Char) : List Char → List (List Char)
  | [] => [[]]
  | c :: rest =>
    if c == sep then
      [] :: splitOnCharL sep rest
    else
      match splitOnCharL sep rest with
      | [] => [[c]]
      | h :: t => (c :: h) :: t

/-- Split a path string on `/`. -/
def splitSlash (s : String) : List String := (splitOnCharL '/' s.data).map String.mk

/-- Normalize a segment list: drop empty and `.` segments, let `..` pop. -/
def collapseSegs (segs : List String) : List String :=
  segs.foldl
    (fun acc seg =>
      if seg == "" || seg == "." then acc
      else if seg == ".." then acc.dropLast
      else acc ++ [seg])
    []

/-- Join segments with `/` separators. -/
def joinSlash : List String → String
  | [] => ""
  | [x] => x
  | x :: rest => x ++ "/" ++ joinSlash rest

/-- Normalize an absolute POSIX path string. -/
def normalizeAbs (s : String) : String := "/" ++ joinSlash (collapseSegs (splitSlash s))

/-- Node `path.resolve(base, p)` for an absolute `base` (POSIX). -/
def pathResolve (base p : String) : String :=
  if strStartsWith p "/" then normalizeAbs p else normalizeAbs (base ++ "/" ++ p)

/-- Drop the longest common prefix of two segment lists. -/
def dropCommon : List String → List String → (List String × List String)
  | [], t => ([], t)
  | f, [] => (f, [])
  | fh :: ft, th :: tt =>
    if fh == th then dropCommon ft tt else (fh :: ft, th :: tt)

/-- Node `path.relative(fromP, toP)` for absolute POSIX paths. -/
def pathRelative (fromP toP : String) : String :=
  let f := collapseSegs (splitSlash fromP)
  let t := collapseSegs (splitSlash toP)
  let (f1, t1) := dropCommon f t
  joinSlash (List.replicate f1.length ".." ++ t1)

/-! ## Permission policy (`src/permission-policy.mjs`)

`isPathWithinRoots` and `normalizePermissionPolicy` transcribed from the
source.  All call sites pass absolute paths, where the single-argument
`path.resolve` performed by the source is pure normalization; the
`process.cwd()` used by `path.resolve` for relative inputs is the explicit
parameter `processCwd`, and `os.homedir()` is the parameter `home`.
-/

/-- Source `isPathWithinRoots(targetPath, roots)`: the target equals a root,
or `path.relative(root, target)` is nonempty, does not start with `..`, and
is not absolute. -/
def isPathWithinRoots (targetPath : String) (roots : List String) : Bool :=
  let resolvedTarget := normalizeAbs targetPath
  roots.any fun root =>
    let resolvedRoot := normalizeAbs root
    resolvedTarget == resolvedRoot ||
      (let rel := pathRelative resolvedRoot resolvedTarget
       !(rel == "") && !(strStartsWith rel "..") && !(strStartsWith rel "/"))

/-- Raw permission-policy input (`{mode?, workspaceRoots?}`); the source's
string-or-array coercion for `workspaceRoots` is collapsed to a list. -/
structure PolicyInput where
  mode : Option String := none
  workspaceRoots : List String := []

/-- Normalized permission policy. -/
structure PermissionPolicy where
  mode : String
  workspaceRoots : List String
deriving Repr, DecidableEq

/-- Source `normalizeWorkspaceRoots`: trim, expand a leading `~/` against
the home directory, `path.resolve`, and deduplicate preserving order. -/
def normalizeWorkspaceRoots (rawRoots : List String) (home processCwd : String) : List String :=
  let normalized := rawRoots.foldl
    (fun acc root =>
      let trimmed := strTrim root
      if trimmed == "" then acc
      else
        let expanded :=
          if strStartsWith trimmed "~/" then home ++ "/" ++ strDrop trimmed 2 else trimmed
        acc ++ [pathResolve processCwd expanded])
    []
  normalized.foldl (fun acc r => if acc.contains r then acc else acc ++ [r]) []

/-- Source `normalizePermissionPolicy` (non-strict path): unknown modes fall
back to `workspace`; in `full` mode the root set is emptied. -/
def normalizePermissionPolicy (input : PolicyInput) (home processCwd : String) : PermissionPolicy :=
  let rawMode := strToLower (strTrim (input.mode.getD "full"))
  let normalizedMode :=
    if rawMode == "workspace" || rawMode == "full" then rawMode else "workspace"
  let roots := normalizeWorkspaceRoots input.workspaceRoots home processCwd
  { mode := normalizedMode
    workspaceRoots := if normalizedMode == "workspace" then roots else [] }

/-! ## Cron store (`cron-store.mjs`, src/unnamed/part_000)

Only the pending-firings list is touched by `addPendingRun` and
`ackPendingRuns`; the job mirror is independent state and is not modelled.
-/

/-- Pending (missed) firing entry `{taskId, missedAt}`. -/
structure PendingRun where
  taskId : String
  missedAt : Nat
deriving Repr, DecidableEq

/-- Source `addPendingRun(taskId)`: pushes `{taskId, missedAt: Date.now()}`
onto the pending list (no removal of earlier entries happens). -/
def addPendingRun (pending : List PendingRun) (taskId : String) (nowv : Nat) : List PendingRun :=
  pending ++ [⟨taskId, nowv⟩]

/-- Source `ackPendingRuns(taskIds)`: removes every entry whose taskId is in
the given list (no-op on an empty id list). -/
def ackPendingRuns (pending : List PendingRun) (taskIds : List String) : List PendingRun :=
  if taskIds.isEmpty then pending
  else pending.filter (fun p => !(taskIds.contains p.taskId))

/-! ## Command analysis (`src/runtime.mjs`)

Transcriptions of `stripQuotes`, `maybePathCandidates`, `looksLikePath`,
`normalizeCandidateToAbsolute`, `shellTokenize`, the sub-command split, the
keyword block list, the dangerous-substitution patterns, and
`enforceCommandPolicy` itself.
-/

/-- Drive-letter test, source regex `^[A-Za-z]:[\\/]`. -/
def hasDriveColon (v : String) : Bool :=
  match v.data with
  | a :: b :: c :: _ => a.isAlpha && b == ':' && (c == '/' || c == '\\')
  | _ => false

/-- Source `stripQuotes(token)`: remove one layer of matching double or
single quotes (JavaScript `slice(1, -1)`). -/
def stripQuotes (token : String) : String :=
  if token == "" then token
  else if (strStartsWith token (String.mk [dquote]) && strEndsWith token (String.mk [dquote]))
       || (strStartsWith token (String.mk [squote]) && strEndsWith token (String.mk [squote])) then
    strDropEnds token
  else token

/-- Source `maybePathCandidates(token)`: strip quotes, skip URL-looking
tokens containing `://`, and consider both the cleaned token and — when a
`=` occurs strictly inside it — the suffix after the first `=`. -/
def maybePathCandidates (token : String) : List String :=
  let clean := stripQuotes token
  if clean == "" then []
  else if strContainsSub clean "://" then []
  else
    (match strIdxOfChar clean '=' with
     | some eqIdx =>
       if 0 < eqIdx && eqIdx < strLen clean - 1 then [strDrop clean (eqIdx + 1)] else []
     | none => []) ++ [clean]

/-- Source `looksLikePath(value)`: the early-`return` chain written as one
boolean formula (empty and `-`-leading values are excluded, then the
path-shape tests fire in source order). -/
def looksLikePath (value : String) : Bool :=
  !(value == "") && !(strStartsWith value "-") &&
    (value == "." || value == ".."
      || strStartsWith value "./" || strStartsWith value "../"
      || strStartsWith value "~/"
      || strStartsWith value "/"
      || hasDriveColon value
      || strContainsChar value '/' || strContainsChar value '\\')

/-- Path-likeness as the specification words it: starts with `.`, `..`,
`./`, `../`, `~/`, `/`, a drive-letter prefix, or contains `/` or `\`
(with `.` and `..` read as the exact strings, as the separate listing of
`./` and `../` requires).  Modelled from the spec for comparison with the
source's `looksLikePath`. -/
def specPathLike (value : String) : Bool :=
  value == "." || value == ".."
    || strStartsWith value "./" || strStartsWith value "../"
    || strStartsWith value "~/"
    || strStartsWith value "/"
    || hasDriveColon value
    || strContainsChar value '/' || strContainsChar value '\\'

/-- Source `normalizeCandidateToAbsolute(candidate, cwd)`: `~/` resolves
against the home directory; absolute and drive-letter candidates go through
single-argument `path.resolve` (which, on POSIX, resolves drive-letter
strings against the daemon's `process.cwd()`); everything else resolves
against the provided `cwd`. -/
def normalizeCandidateToAbsolute (candidate cwd home processCwd : String) : Option String :=
  if !(looksLikePath candidate) then none
  else if strStartsWith candidate "~/" then some (pathResolve home (strDrop candidate 2))
  else if strStartsWith candidate "/" || hasDriveColon candidate then
    some (pathResolve processCwd candidate)
  else some (pathResolve cwd candidate)

/-- Position of the first occurrence of a character, if any. -/
def findCharSplit (c : Char) : List Char → Option (List Char × List Char)
  | [] => none
  | x :: rest =>
    if x == c then some ([], rest)
    else match findCharSplit c rest with
      | some (before, after) => some (x :: before, after)
      | none => none

/-- Source `shellTokenize(command)`, regex `"[^"]*"|'[^']*'|\S+` applied
globally: at each position, a whole double- or single-quoted run is one
token when a closing quote exists, otherwise a maximal run of non-space
characters.  Fuel is the remaining character count; every step consumes at
least one character, so the initial fuel is never exhausted. -/
def shellTokenizeGo : Nat → List Char → List String
  | 0, _ => []
  | _ + 1, [] => []
  | fuel + 1, c :: rest =>
    if c.isWhitespace then shellTokenizeGo fuel rest
    else if c == dquote || c == squote then
      match findCharSplit c rest with
      | some (inside, after) =>
        String.mk (c :: (inside ++ [c])) :: shellTokenizeGo fuel after
      | none =>
        let tok := (c :: rest).takeWhile (fun x => !x.isWhitespace)
        String.mk tok :: shellTokenizeGo fuel ((c :: rest).dropWhile (fun x => !x.isWhitespace))
    else
      let tok := (c :: rest).takeWhile (fun x => !x.isWhitespace)
      String.mk tok :: shellTokenizeGo fuel ((c :: rest).dropWhile (fun x => !x.isWhitespace))

/-- Tokenizer entry point. -/
def shellTokenize (command : String) : List String :=
  shellTokenizeGo command.data.length command.data

/-- Source sub-command split on the regex `\s*(?:\|{1,2}|&&|;)\s*`: a
separator is `||`, `|`, `&&` or `;` together with the surrounding
whitespace; text between separators forms the pieces. -/
def splitSubCommandsGo : Nat → List Char → List Char → List String
  | 0, acc, _ => [String.mk acc.reverse]
  | _ + 1, acc, [] => [String.mk acc.reverse]
  | fuel + 1, acc, c :: rest =>
    let flush (sepLen : Nat) (l : List Char) : List String :=
      String.mk ((acc.dropWhile Char.isWhitespace).reverse)
        :: splitSubCommandsGo fuel [] ((l.drop sepLen).dropWhile Char.isWhitespace)
    if c == '|' then
      match rest with
      | '|' :: _ => flush 2 (c :: rest)
      | _ => flush 1 (c :: rest)
    else if c == '&' then
      match rest with
      | '&' :: _ => flush 2 (c :: rest)
      | _ => splitSubCommandsGo fuel (c :: acc) rest
    else if c == ';' then flush 1 (c :: rest)
    else splitSubCommandsGo fuel (c :: acc) rest

/-- Sub-command split entry point. -/
def splitSubCommands (command : String) : List String :=
  splitSubCommandsGo command.data.length [] command.data

/-- Word characters for the regex boundary `\b` (`[A-Za-z0-9_]`). -/
def isWordChar (c : Char) : Bool := c.isAlpha || c.isDigit || c == '_'

/-- Whether `w` occurs at the head of `l` followed by a word boundary. -/
def wordAtHead (w l : List Char) : Bool :=
  w.isPrefixOf l &&
    (match (l.drop w.length).head? with
     | some c => !isWordChar c
     | none => true)

/-- Regex `\bw\b` over a lowercased character list: `w` occurs with non-word
characters (or ends) on both sides.  `prev` is the character before the
current position. -/
def containsWordGo (w : List Char) (prev : Option Char) : List Char → Bool
  | [] => false
  | c :: rest =>
    ((match prev with
      | some p => !isWordChar p
      | none => true) && wordAtHead w (c :: rest))
    || containsWordGo w (some c) rest

/-- Case-insensitive whole-word containment, regex `\bw\b` with flag `i`. -/
def containsWord (w : String) (s : String) : Bool :=
  containsWordGo (strToLower w).data none (strToLower s).data

/-- Match for the tail of the source regex `\brm\s+-rf\s+\/(?![\w.-])`
starting at the current position of a lowercased list: `rm`, whitespace,
`-rf`, whitespace, `/` not followed by a word character, `.` or `-`. -/
def rmRfAtHead (l : List Char) : Bool :=
  if ['r', 'm'].isPrefixOf l then
    let l1 := l.drop 2
    (match l1.head? with
     | some c => c.isWhitespace
     | none => false) &&
    (let l2 := l1.dropWhile Char.isWhitespace
     if ['-', 'r', 'f'].isPrefixOf l2 then
       let l3 := l2.drop 3
       (match l3.head? with
        | some c => c.isWhitespace
        | none => false) &&
       (let l4 := l3.dropWhile Char.isWhitespace
        match l4 with
        | '/' :: after =>
          match after.head? with
          | some c => !(isWordChar c || c == '.' || c == '-')
          | none => true
        | _ => false)
     else false)
  else false

/-- Scan for the `rm -rf /` pattern with a word boundary before `rm`. -/
def hasRmRfRootGo (prev : Option Char) : List Char → Bool
  | [] => false
  | c :: rest =>
    ((match prev with
      | some p => !isWordChar p
      | none => true) && rmRfAtHead (c :: rest))
    || hasRmRfRootGo (some c) rest

/-- Case-insensitive match of the source regex `\brm\s+-rf\s+\/(?![\w.-])`. -/
def hasRmRfRoot (s : String) : Bool := hasRmRfRootGo none (strToLower s).data

/-- Source `WORKSPACE_BLOCKED_COMMANDS`: the first matching rule's reason. -/
def blockedReason (command : String) : Option String :=
  if containsWord "sudo" command then some "sudo is disabled in workspace mode"
  else if containsWord "su" command then some "user switching is disabled in workspace mode"
  else if containsWord "shutdown" command then
    some "system shutdown commands are disabled in workspace mode"
  else if containsWord "reboot" command then
    some "system reboot commands are disabled in workspace mode"
  else if containsWord "halt" command then
    some "system halt commands are disabled in workspace mode"
  else if containsWord "poweroff" command then
    some "poweroff commands are disabled in workspace mode"
  else if hasRmRfRoot command then
    some "destructive root deletes are blocked in workspace mode"
  else none

/-- Whether the command contains a backtick-delimited substitution, source
regex `` `[^`]*` ``: a backtick with another backtick after it. -/
def hasBacktickPair : List Char → Bool
  | [] => false
  | c :: rest => if c == btick then rest.contains btick else hasBacktickPair rest

/-- Source `DANGEROUS_SHELL_PATTERNS`: the first matching rule's reason. -/
def dangerousReason (command : String) : Option String :=
  if strContainsSub command "$(" then
    some "command substitution $(...) is not allowed in workspace mode"
  else if hasBacktickPair command.data then
    some "backtick command substitution is not allowed in workspace mode"
  else if strContainsSub command ("$" ++ String.mk ['\x7b']) then
    some ("parameter expansion $" ++ String.mk ['\x7b', '.', '.', '.', '\x7d']
      ++ " is not allowed in workspace mode")
  else if strContainsSub command "<(" then
    some "process substitution <(...) is not allowed in workspace mode"
  else if strContainsSub command ">(" then
    some "process substitution >(...) is not allowed in workspace mode"
  else none

/-- Check of one candidate inside `enforceCommandPolicy`'s token loop:
`none` means admissible, `some c` reports the escaping candidate. -/
def checkCandidate (cwd home processCwd : String) (roots : List String)
    (candidate : String) : Option String :=
  match normalizeCandidateToAbsolute candidate cwd home processCwd with
  | none => none
  | some absPath => if isPathWithinRoots absPath roots then none else some candidate

/-- First candidate in the command that escapes the workspace roots. -/
def firstEscape (command cwd home processCwd : String) (roots : List String) : Option String :=
  (splitSubCommands command).findSome? fun sub =>
    (shellTokenize sub).findSome? fun token =>
      (maybePathCandidates token).findSome? (checkCandidate cwd home processCwd roots)

/-- Source `enforceCommandPolicy({command, cwd, permissionPolicy})`: no-op
outside `workspace` mode; otherwise reject blocked keywords, then dangerous
substitution patterns, then the first path candidate that escapes the
workspace roots. -/
def enforceCommandPolicy (command cwd : String) (pin : PolicyInput)
    (home processCwd : String) : Except String Unit :=
  let policy := normalizePermissionPolicy pin home processCwd
  if !(policy.mode == "workspace") then .ok ()
  else
    match blockedReason command with
    | some reason => .error ("Command blocked by workspace policy: " ++ reason ++ ".")
    | none =>
      match dangerousReason command with
      | some reason => .error ("Command blocked by workspace policy: " ++ reason ++ ".")
      | none =>
        match firstEscape command cwd home processCwd policy.workspaceRoots with
        | some candidate => .error ("Path escapes workspace boundary: " ++ candidate)
        | none => .ok ()

/-- Resolution of a candidate as the specification's claim words it: the
home directory for `~/` candidates, the candidate itself when absolute, and
`cwd`-relative otherwise.  Modelled from the spec for comparison with
`normalizeCandidateToAbsolute`. -/
def specResolve (candidate cwd home : String) : String :=
  if strStartsWith candidate "~/" then pathResolve home (strDrop candidate 2)
  else if strStartsWith candidate "/" then normalizeAbs candidate
  else pathResolve cwd candidate

/-! ## One-shot command results (`src/runtime.mjs`, `runCommand`)

The async spawn is embedded by its terminating event: either the child's
`error` event (spawn failure) or its `close` event with an optional numeric
exit code (`null` when killed by a signal).  The accumulated ring-buffered
output, the timeout flag, and the start/end clock readings are inputs.
-/

/-- Result record of `runCommand`. -/
structure RunResult where
  ok : Bool
  exitCode : Int
  stdout : String
  stderr : String
  timedOut : Bool
  durationMs : Int
deriving Repr, DecidableEq

/-- Terminating child-process event. -/
inductive ChildEvent where
  | errorEvt (message : String)
  | closeEvt (code : Option Int)
deriving Repr, DecidableEq

/-- Source `runCommand` resolution: the `error` handler resolves with
`ok:false, exitCode:-1` and the error message appended to stderr through a
newline and `trim()`; the `close` handler resolves with
`ok = !timedOut && code === 0` and `exitCode = code` when numeric, `-1`
otherwise. -/
def runCommandResult (ev : ChildEvent) (stdout stderr : String) (timedOut : Bool)
    (startedAt endAt : Nat) : RunResult :=
  match ev with
  | .errorEvt message =>
    { ok := false
      exitCode := -1
      stdout := stdout
      stderr := strTrim (stderr ++ "\n" ++ message)
      timedOut := timedOut
      durationMs := (endAt : Int) - (startedAt : Int) }
  | .closeEvt code =>
    { ok := !timedOut && code == some 0
      exitCode := match code with | some c => c | none => -1
      stdout := stdout
      stderr := stderr
      timedOut := timedOut
      durationMs := (endAt : Int) - (startedAt : Int) }

/-! ## Session-exit event log (`src/runtime.mjs`)

The module state consists of the bounded `sessionEvents` array and the
`nextSessionEventCursor` counter (initially 1).  `emitSessionExited`
appends an event carrying the current counter value and increments it;
`pushSessionEvent` truncates the head beyond `MAX_SESSION_EVENT_COUNT`
(default 500); `cleanupAllSessions` clears the log and resets the counter
to 1.  JavaScript's falsy-`||` on timestamps is modelled by `jsOrNat`.
-/

/-- JavaScript `a || b` for an optional number: `0` and absence are falsy. -/
def jsOrNat : Option Nat → Nat → Nat
  | some n, d => if n = 0 then d else n
  | none, d => d

/-- Snapshot of the session fields read when an exit event is emitted. -/
structure SessionInfo where
  sessionId : String
  command : String
  cwd : String
  timedOut : Bool
  exitCode : Option Int
  startedAt : Nat
  finishedAt : Option Nat
deriving Repr, DecidableEq

/-- Entry of the `sessionEvents` log. -/
structure SessionEvent where
  cursor : Nat
  sessionId : String
  command : String
  cwd : String
  timedOut : Bool
  exitCode : Int
  startedAt : Nat
  finishedAt : Nat
  durationMs : Int
deriving Repr, DecidableEq

/-- Module-level event-log state. -/
structure EventLogState where
  events : List SessionEvent
  nextCursor : Nat
deriving Repr, DecidableEq

/-- Default bound `MAX_SESSION_EVENT_COUNT`. -/
def MAX_SESSION_EVENT_COUNT : Nat := 500

/-- State at module load: empty log, cursor counter 1. -/
def initialLogState : EventLogState := ⟨[], 1⟩

/-- Source `emitSessionExited(session)` followed by `pushSessionEvent`:
assign the current counter as cursor, post-increment, truncate the head
when the log exceeds the bound. -/
def emitSessionExited (st : EventLogState) (s : SessionInfo) (nowv : Nat) : EventLogState :=
  let fin := jsOrNat s.finishedAt nowv
  let event : SessionEvent :=
    { cursor := st.nextCursor
      sessionId := s.sessionId
      command := s.command
      cwd := s.cwd
      timedOut := s.timedOut
      exitCode := match s.exitCode with | some c => c | none => -1
      startedAt := s.startedAt
      finishedAt := fin
      durationMs := (fin : Int) - (s.startedAt : Int) }
  let grown := st.events ++ [event]
  let bounded :=
    if MAX_SESSION_EVENT_COUNT < grown.length then
      grown.drop (grown.length - MAX_SESSION_EVENT_COUNT)
    else grown
  ⟨bounded, st.nextCursor + 1⟩

/-- Source `cleanupAllSessions()` restricted to the event log: clears the
events and resets the cursor counter to 1. -/
def cleanupAllSessions (_st : EventLogState) : EventLogState := initialLogState

/-- Source `clampInteger(input, {defaultValue, min, max})`; `none` stands
for a value whose `parseInt` is not finite. -/
def clampInteger (input : Option Int) (defaultValue mn mx : Int) : Int :=
  match input with
  | none => defaultValue
  | some v => min (max v mn) mx

/-- JavaScript `Number.MAX_SAFE_INTEGER`. -/
def MAX_SAFE_INTEGER : Int := 9007199254740991

/-- Insertion into a cursor-sorted event list. -/
def insertByCursor (e : SessionEvent) : List SessionEvent → List SessionEvent
  | [] => [e]
  | x :: rest => if e.cursor ≤ x.cursor then e :: x :: rest else x :: insertByCursor e rest

/-- Ascending sort by cursor (the source's `sort((a, b) => a.cursor - b.cursor)`). -/
def sortByCursor : List SessionEvent → List SessionEvent
  | [] => []
  | x :: rest => insertByCursor x (sortByCursor rest)

/-- Result of `listSessionEvents`. -/
structure SessionEventsPage where
  events : List SessionEvent
  nextCursor : Nat
  hasMore : Bool
deriving Repr, DecidableEq

/-- Source `listSessionEvents({after, limit})`: clamp the paging inputs,
keep events with cursor strictly greater than `after`, sort ascending by
cursor, take `limit` of them; `nextCursor` is the last returned cursor or
`max(after, nextSessionEventCursor - 1)` when nothing matched. -/
def listSessionEvents (st : EventLogState) (after limit : Option Int) : SessionEventsPage :=
  let a := (clampInteger after 0 0 MAX_SAFE_INTEGER).toNat
  let lim := (clampInteger limit 50 1 500).toNat
  let events := (sortByCursor (st.events.filter (fun e => a < e.cursor))).take lim
  let nextCursor :=
    match events.getLast? with
    | some e => e.cursor
    | none => max a (st.nextCursor - 1)
  { events := events
    nextCursor := nextCursor
    hasMore := st.events.any (fun e => nextCursor < e.cursor) }

/-- Operations on the event log that the claims quantify over. -/
inductive LogOp where
  | emit (s : SessionInfo) (nowv : Nat)
  | cleanup
deriving Repr, DecidableEq

/-- Apply a single log operation. -/
def applyLogOp (st : EventLogState) : LogOp → EventLogState
  | .emit s nowv => emitSessionExited st s nowv
  | .cleanup => cleanupAllSessions st

/-- Cursors assigned to the successive emits of a trace, starting from `st`. -/
def assignedCursors (st : EventLogState) : List LogOp → List Nat
  | [] => []
  | .emit s nowv :: rest => st.nextCursor :: assignedCursors (applyLogOp st (.emit s nowv)) rest
  | .cleanup :: rest => assignedCursors (applyLogOp st .cleanup) rest

/-! ## Authorization pipeline (`src/server.mjs`)

`isLoopback`, `safeTokenCompare`, the failure-window rate limiter, and
`authorize`.  The module-level `authFailures` array (timestamps in append
order) is explicit state; `isAuthRateLimited` prunes its expired prefix in
place, and a token mismatch appends the current time.
-/

/-- Source `isLoopback(addr)`. -/
def isLoopback (addr : String) : Bool :=
  if addr == "" then false
  else addr == "127.0.0.1" || addr == "::1" || addr == "::ffff:127.0.0.1"

/-- Auth window length `AUTH_WINDOW_MS`. -/
def AUTH_WINDOW_MS : Nat := 60000

/-- Failure threshold `AUTH_MAX_FAILURES`. -/
def AUTH_MAX_FAILURES : Nat := 20

/-- Prefix-pruning loop of `isAuthRateLimited`: shift entries older than
`now - AUTH_WINDOW_MS` off the front. -/
def pruneAuthFailures (failures : List Nat) (nowv : Nat) : List Nat :=
  failures.dropWhile (fun t => t < nowv - AUTH_WINDOW_MS)

/-- Source `isAuthRateLimited()`: prune, then compare the remaining count
against the threshold.  Returns the flag and the pruned (mutated) state. -/
def isAuthRateLimited (failures : List Nat) (nowv : Nat) : Bool × List Nat :=
  let pruned := pruneAuthFailures failures nowv
  (AUTH_MAX_FAILURES ≤ pruned.length, pruned)

/-- Source `safeTokenCompare(a, b)`: false on an empty side or a byte-length
mismatch, constant-time content comparison otherwise (equality here). -/
def safeTokenCompare (a b : String) : Bool :=
  if a == "" || b == "" then false
  else if !(a.utf8ByteSize == b.utf8ByteSize) then false
  else a == b

/-- Bearer-token extraction in `authorize`. -/
def extractBearer (authHeader : String) : String :=
  if strStartsWith authHeader "Bearer " then strTrim (strDrop authHeader 7) else ""

/-- Outcome of `authorize` together with the updated failure window. -/
structure AuthResult where
  ok : Bool
  message : String
  failures : List Nat
deriving Repr, DecidableEq

/-- Message for non-loopback clients. -/
def loopbackOnlyMsg : String := "Only loopback clients are allowed."

/-- Message for rate-limited requests. -/
def rateLimitMsg : String := "Too many failed authentication attempts. Try again later."

/-- Message for a bad token. -/
def invalidTokenMsg : String := "Unauthorized: invalid token."

/-- Source `authorize(req, token)`: loopback check, then rate limit, then
bearer-token comparison; a mismatch records a failure timestamp. -/
def authorize (addr : String) (failures : List Nat) (nowv : Nat)
    (authHeader token : String) : AuthResult :=
  if !(isLoopback addr) then ⟨false, loopbackOnlyMsg, failures⟩
  else
    let pruned := pruneAuthFailures failures nowv
    if AUTH_MAX_FAILURES ≤ pruned.length then ⟨false, rateLimitMsg, pruned⟩
    else
      let provided := extractBearer authHeader
      if !(safeTokenCompare provided token) then
        ⟨false, invalidTokenMsg, pruned ++ [nowv]⟩
      else ⟨true, "", pruned⟩

/-! ## Route table and dispatch (`src/server.mjs`, `createCompanionServer`)

The request handler answers CORS preflight (`OPTIONS`) with 200 before any
authorization; every route in the hand-written table calls `authorize`
first and answers 401 on failure; an unmatched request falls through to the
404 response at the end of the handler (without an authorization check).
Routes are matched on the `/`-split path segments, reproducing the exact
paths and the `([^/]+)` captures of the source in source order.
-/

/-- Runtime path aliases: `runtime` and legacy `local-runtime`. -/
def isRt (s : String) : Bool := s == "runtime" || s == "local-runtime"

/-- The route table of `createCompanionServer`, in source order; `some name`
identifies the handling branch, `none` means fall-through to 404. -/
def findRoute (method pathname : String) : Option String :=
  match method, splitSlash pathname with
  | "GET", ["", "healthz"] => some "healthz"
  | "POST", ["", "api", "local-runtime", "exec"] => some "exec"
  | "POST", ["", "api", "runtime", "exec"] => some "exec"
  | "POST", ["", "api", "local-runtime", "session", "start"] => some "sessionStart"
  | "POST", ["", "api", "runtime", "session", "start"] => some "sessionStart"
  | "GET", ["", "api", "local-runtime", "sessions"] => some "sessionList"
  | "GET", ["", "api", "runtime", "sessions"] => some "sessionList"
  | "GET", ["", "api", rt, "sessions", id, "log"] =>
    if isRt rt && !(id == "") then some "sessionLog" else none
  | "GET", ["", "api", rt, "session", id] =>
    if isRt rt && !(id == "") then some "sessionStatus" else none
  | "POST", ["", "api", rt, "session", id, "stop"] =>
    if isRt rt && !(id == "") then some "sessionStop" else none
  | "POST", ["", "api", rt, "session", id, "write"] =>
    if isRt rt && !(id == "") then some "sessionWrite" else none
  | "POST", ["", "api", rt, "session", id, "send-keys"] =>
    if isRt rt && !(id == "") then some "sessionSendKeys" else none
  | "GET", ["", "api", "local-runtime", "session-events"] => some "sessionEvents"
  | "GET", ["", "api", "runtime", "session-events"] => some "sessionEvents"
  | "GET", ["", "api", "local-runtime", "runs", "diagnostics"] => some "runDiagnostics"
  | "GET", ["", "api", "runtime", "runs", "diagnostics"] => some "runDiagnostics"
  | "GET", ["", "api", "local-runtime", "runs"] => some "runList"
  | "GET", ["", "api", "runtime", "runs"] => some "runList"
  | "GET", ["", "api", rt, "runs", id] =>
    if isRt rt && !(id == "") then some "runById" else none
  | "POST", ["", "api", "runtime", "approvals"] => some "approvalCreate"
  | "GET", ["", "api", "runtime", "approvals", "pending"] => some "approvalPending"
  | "POST", ["", "api", "runtime", "approvals", id, "resolve"] =>
    if !(id == "") then some "approvalResolve" else none
  | "GET", ["", "api", "runtime", "approvals", id] =>
    if !(id == "") then some "approvalById" else none
  | "GET", ["", "api", "mcp", "servers"] => some "mcpServers"
  | "GET", ["", "api", "mcp", "tools"] => some "mcpTools"
  | "POST", ["", "api", "mcp", "tools", "call"] => some "mcpToolsCall"
  | "POST", ["", "api", "mcp", "servers", name, "restart"] =>
    if !(name == "") then some "mcpRestart" else none
  | "GET", ["", "api", "security", "policy"] => some "policyGet"
  | "POST", ["", "api", "security", "policy"] => some "policySet"
  | "GET", ["", "api", "cron", "jobs"] => some "cronJobs"
  | "POST", ["", "api", "cron", "jobs"] => some "cronUpsert"
  | "DELETE", ["", "api", "cron", "jobs", id] =>
    if !(id == "") then some "cronDelete" else none
  | "GET", ["", "api", "cron", "pending"] => some "cronPending"
  | "POST", ["", "api", "cron", "pending", "ack"] => some "cronAck"
  | "POST", ["", "api", "skills", "extract"] => some "skillExtract"
  | "DELETE", ["", "api", "skills", name] =>
    if !(name == "") then some "skillDelete" else none
  | _, _ => none

/-- Dispatch outcome determined by the routing and authorization layer
alone: an immediate status (200 for preflight, 401 for failed auth, 404 for
no route) or hand-off to the named handler. -/
inductive Dispatched where
  | immediate (status : Nat)
  | handled (route : String)
deriving Repr, DecidableEq

/-- Composition of the request handler's prefix: `OPTIONS` is answered 200
before any check; each matched route consults `authorize` and answers 401
on failure; unmatched requests get 404. -/
def companionDispatch (method pathname addr : String) (failures : List Nat) (nowv : Nat)
    (authHeader token : String) : Dispatched :=
  if method == "OPTIONS" then .immediate 200
  else
    match findRoute method pathname with
    | none => .immediate 404
    | some route =>
      if (authorize addr failures nowv authHeader token).ok then .handled route
      else .immediate 401

/-! ## Run store (`src/run-store.mjs`)

`normalizeRun` and `updateRun`.  A raw JavaScript field is `Option`-valued:
`none` stands for an absent (or non-numeric, for timestamps) field.  The
free-form `meta` bag and `deliveryState` are carried through `updateRun`
unchanged by the same spread mechanics as `summary`/`error` and play no
role in any claim; they are omitted from the record.
-/

/-- Source `normalizeTimestamp(value)`: non-finite becomes absent, finite
values are floored into `max(0, ...)`. -/
def normalizeTimestamp : Option Int → Option Nat
  | none => none
  | some v => some (max 0 v).toNat

/-- Source `trimText(text, maxChars)`: trim, drop empties, truncate long
text with a `...[truncated]` marker. -/
def trimText (text : Option String) (maxChars : Nat) : Option String :=
  let normalized := strTrim (text.getD "")
  if normalized == "" then none
  else if strLen normalized ≤ maxChars then some normalized
  else some (strTrimEnd (strTake normalized (max 32 (maxChars - 16))) ++ "...[truncated]")

/-- Valid run types `RUN_TYPES`. -/
def RUN_TYPES : List String := ["exec", "session", "cron", "heartbeat"]

/-- Valid run states `RUN_STATES`. -/
def RUN_STATES : List String :=
  ["queued", "running", "waiting_approval", "retrying", "done", "failed"]

/-- Source `normalizeType(value, fallback)`. -/
def normalizeType (value : Option String) (fallback : String) : String :=
  let normalized := strToLower (strTrim (value.getD ""))
  if RUN_TYPES.contains normalized then normalized else fallback

/-- Source `normalizeState(value, fallback)`. -/
def normalizeState (value : Option String) (fallback : String) : String :=
  let normalized := strToLower (strTrim (value.getD ""))
  if RUN_STATES.contains normalized then normalized else fallback

/-- Normalized run envelope (persisted shape). -/
structure RunEnvelope where
  runId : String
  type : String
  state : String
  createdAt : Nat
  updatedAt : Nat
  startedAt : Option Nat := none
  finishedAt : Option Nat := none
  summary : Option String := none
  error : Option String := none
deriving Repr, DecidableEq

/-- Raw input object for `normalizeRun` / the `updateRun` patch. -/
structure RunInput where
  runId : Option String := none
  type : Option String := none
  state : Option String := none
  createdAt : Option Int := none
  updatedAt : Option Int := none
  startedAt : Option Int := none
  finishedAt : Option Int := none
  summary : Option String := none
  error : Option String := none

/-- Source `normalizeRun(input)`: reject a blank `runId`; fall back through
JavaScript `||` (zero is falsy) for `createdAt`/`updatedAt`; derive the
state fallback from the timestamps; trim the text fields. -/
def normalizeRun (input : RunInput) (nowv : Nat) : Option RunEnvelope :=
  let runId := strTrim (input.runId.getD "")
  if runId == "" then none
  else
    let createdAt := jsOrNat (normalizeTimestamp input.createdAt) nowv
    let updatedAt := jsOrNat (normalizeTimestamp input.updatedAt) createdAt
    let startedAt := normalizeTimestamp input.startedAt
    let finishedAt := normalizeTimestamp input.finishedAt
    let stateFallback :=
      match finishedAt with
      | some f => if !(f == 0) && startedAt.isSome then "done" else "failed"
      | none => "queued"
    some
      { runId := runId
        type := normalizeType input.type "exec"
        state := normalizeState input.state stateFallback
        createdAt := createdAt
        updatedAt := updatedAt
        startedAt := startedAt
        finishedAt := finishedAt
        summary := trimText input.summary 500
        error := trimText input.error 500 }

/-- Spread `{...current, ...patch, runId, createdAt, updatedAt}` built by
`updateRun`: patch fields override the current record's where present, and
the identity and clock fields are pinned. -/
def mergePatch (current : RunEnvelope) (patch : RunInput) (nowv : Nat) : RunInput :=
  { runId := some current.runId
    type := patch.type <|> some current.type
    state := patch.state <|> some current.state
    createdAt := some (Int.ofNat current.createdAt)
    updatedAt := some (Int.ofNat nowv)
    startedAt := patch.startedAt <|> current.startedAt.map Int.ofNat
    finishedAt := patch.finishedAt <|> current.finishedAt.map Int.ofNat
    summary := patch.summary <|> current.summary
    error := patch.error <|> current.error }

/-- Source `updateRun(runId, patch)`: locate the run, re-normalize the
merged record, then auto-fill `finishedAt` on a terminal state and
`startedAt` on an active state when the merged record lacks them. -/
def updateRun (store : List RunEnvelope) (runId : String) (patch : RunInput)
    (nowv : Nat) : Option RunEnvelope × List RunEnvelope :=
  let normalizedId := strTrim runId
  if normalizedId == "" then (none, store)
  else
    match store.findIdx? (fun run => run.runId == normalizedId) with
    | none => (none, store)
    | some index =>
      match store[index]? with
      | none => (none, store)
      | some current =>
        match normalizeRun (mergePatch current patch nowv) nowv with
        | none => (none, store)
        | some next =>
          let final :=
            { next with
              finishedAt :=
                if (next.state == "done" || next.state == "failed")
                    && next.finishedAt.isNone then some nowv
                else next.finishedAt
              startedAt :=
                if (next.state == "running" || next.state == "retrying")
                    && next.startedAt.isNone then some nowv
                else next.startedAt }
          (some final, store.set index final)

/-! ## Approval store (approval-store, bundled in `src/run-store.mjs`)

`resolveApproval` and `expireOverdueApprovals` over the in-memory approvals
array.  The free-form `meta` bag is untouched by both and omitted.
-/

/-- Persisted approval record. -/
structure ApprovalRecord where
  requestId : String
  conversationId : String
  toolName : String
  toolPreview : String
  riskLevel : String
  channels : List String
  status : String
  createdAt : Nat
  expiresAt : Nat
  resolvedAt : Option Nat := none
  resolvedBy : Option String := none
deriving Repr, DecidableEq

/-- Source `VALID_STATUSES`. -/
def VALID_STATUSES : List String := ["pending", "approved", "rejected", "expired"]

/-- Source `resolveApproval(requestId, resolution, resolvedBy)`: a missing
or blank id gives `null`; a record that is not pending is returned as-is
without touching the store; a pending record gets the resolution (or
`rejected` when the resolution is not a valid status), a `resolvedAt`
stamp, and — when `resolvedBy` is truthy — a 100-character `resolvedBy`. -/
def resolveApproval (store : List ApprovalRecord) (requestId resolution : String)
    (resolvedBy : Option String) (nowv : Nat) : Option ApprovalRecord × List ApprovalRecord :=
  let id := strTrim requestId
  if id == "" then (none, store)
  else
    match store.findIdx? (fun a => a.requestId == id) with
    | none => (none, store)
    | some index =>
      match store[index]? with
      | none => (none, store)
      | some current =>
        if !(current.status == "pending") then (some current, store)
        else
          let status := if VALID_STATUSES.contains resolution then resolution else "rejected"
          let updated :=
            { current with
              status := status
              resolvedAt := some nowv
              resolvedBy :=
                match resolvedBy with
                | some rb => if rb == "" then current.resolvedBy else some (strTake rb 100)
                | none => current.resolvedBy }
          (some updated, store.set index updated)

/-- Source `expireOverdueApprovals()`: flip every pending record whose
`expiresAt` has passed to `expired`, stamping `resolvedAt`. -/
def expireOverdueApprovals (store : List ApprovalRecord) (nowv : Nat) : List ApprovalRecord :=
  store.map fun a =>
    if a.status == "pending" && a.expiresAt ≤ nowv then
      { a with status := "expired", resolvedAt := some nowv }
    else a

/-- Resolution extraction in the HTTP resolve handler,
`String(body.resolution || 'rejected')`: an absent or empty (falsy) body
field is replaced by `rejected`. -/
def resolutionOrDefault : Option String → String
  | none => "rejected"
  | some s => if s == "" then "rejected" else s

/-! ## Persistence write plans

The sequence of filesystem operations each store's save routine performs,
transcribed from `writeStoreNow` (runs), `writeStoreNow` (approvals),
`saveStore` (cron, src/unnamed/part_000) and `saveConfig` (config).  The
runs plan includes the backup copy, which the source skips when the target
does not exist yet (`ENOENT`); the conditional does not affect the claims.
-/

/-- Filesystem operations issued by the stores. -/
inductive FsOp where
  | mkdirRec (path : String)
  | writeFile (path : String) (mode : Nat)
  | chmodOp (path : String) (mode : Nat)
  | copyFile (src dst : String)
  | renameTo (src dst : String)
deriving Repr, DecidableEq

/-- Runs-store `writeStoreNow()`: write `runs.json.tmp`, back up the old
target to `runs.json.bak`, then rename the temp file over the target. -/
def runsWriteStoreNow (dir : String) : List FsOp :=
  let target := dir ++ "/runs.json"
  let backup := dir ++ "/runs.json.bak"
  let tmp := target ++ ".tmp"
  [ .mkdirRec dir
  , .writeFile tmp 0o600
  , .chmodOp tmp 0o600
  , .copyFile target backup
  , .chmodOp backup 0o600
  , .renameTo tmp target
  , .chmodOp target 0o600 ]

/-- Approval-store `writeStoreNow()`: write `approvals.json.tmp`, then
rename it over the target. -/
def approvalsWriteStoreNow (dir : String) : List FsOp :=
  let target := dir ++ "/approvals.json"
  let tmp := target ++ ".tmp"
  [ .mkdirRec dir
  , .writeFile tmp 0o600
  , .chmodOp tmp 0o600
  , .renameTo tmp target
  , .chmodOp target 0o600 ]

/-- Cron-store `saveStore()`: writes the JSON payload directly to
`cron-jobs.json`. -/
def cronSaveStore (dir : String) : List FsOp :=
  let target := dir ++ "/cron-jobs.json"
  [ .mkdirRec dir
  , .writeFile target 0o600
  , .chmodOp target 0o600 ]

/-- Config `saveConfig(config)`: writes the JSON payload directly to
`companion.json`. -/
def configSaveConfig (dir : String) : List FsOp :=
  let target := dir ++ "/companion.json"
  [ .mkdirRec dir
  , .writeFile target 0o600
  , .chmodOp target 0o600 ]

/-- A plan writes its payload directly to the target file. -/
def writesDirectly (plan : List FsOp) (target : String) : Prop :=
  ∃ m, FsOp.writeFile target m ∈ plan

/-- A plan follows the atomic discipline for `target`: it never writes the
target directly, and it writes `target.tmp` before renaming it over the
target. -/
def atomicReplaceVia (plan : List FsOp) (target : String) : Prop :=
  ¬ writesDirectly plan target ∧
    ∃ (i j : Nat) (m : Nat), i < j ∧
      plan[i]? = some (FsOp.writeFile (target ++ ".tmp") m) ∧
      plan[j]? = some (FsOp.renameTo (target ++ ".tmp") target)

/-! ## General lemmas -/

/-- Appending a nonempty suffix changes a string. -/
theorem append_tmp_ne (s : String) : ¬ (s ++ ".tmp" = s) := by
  intro h
  have hl := congrArg String.length h
  rw [String.length_append] at hl
  have h4 : (".tmp" : String).length = 4 := rfl
  rw [h4] at hl
  omega

/-- A `findSome?` returning `none` means no element produced a value. -/
theorem findSome?_none {α β : Type} {f : α → Option β} :
    ∀ {l : List α}, l.findSome? f = none → ∀ a ∈ l, f a = none := by
  intro l
  induction l with
  | nil => intro _ a ha; cases ha
  | cons x xs ih =>
    intro h a ha
    rw [List.findSome?_cons] at h
    cases hx : f x with
    | some b => rw [hx] at h; cases h
    | none =>
      rw [hx] at h
      rcases List.mem_cons.mp ha with rfl | ha
      · exact hx
      · exact ih h a ha

/-! ## Claim C3 — pending-firing compaction (code bug)

The specification asserts that `addPendingRun(t)` compacts: repeated calls
leave a single pending entry for `t` carrying the last call's timestamp.
The source (`src/unnamed/part_000`, lines 85–88) only pushes a new entry;
the repository's own test suite ("addPendingRun compacts older entries for
the same taskId") expects one entry after three calls, so the code
contradicts its own tests.
-/

/-- C3: two successive `addPendingRun` calls for the same task leave two
pending entries, not one — the store does not compact, contradicting the
claim and the repo's own test. -/
theorem C3_addPendingRun_appends :
    addPendingRun (addPendingRun [] "task-a" 100) "task-a" 200 =
      [⟨"task-a", 100⟩, ⟨"task-a", 200⟩] ∧
    ((addPendingRun (addPendingRun [] "task-a" 100) "task-a" 200).filter
        (fun p => p.taskId == "task-a")).length = 2 :=
  ⟨rfl, rfl⟩

/-! ## Claim C6 — `runCommand` result shape -/

/-- C6: on every terminating event, `runCommand`'s result satisfies
`ok = !timedOut && exitCode == 0`; on the spawn-error path the result is
`ok = false`, `exitCode = -1`, with the error message appended to the
previously captured stderr (through a newline, trimmed, as the source
builds it). -/
theorem C6_runCommand_result_shape :
    (∀ (ev : ChildEvent) (stdout stderr : String) (timedOut : Bool) (startedAt endAt : Nat),
      (runCommandResult ev stdout stderr timedOut startedAt endAt).ok
        = (!(runCommandResult ev stdout stderr timedOut startedAt endAt).timedOut
            && (runCommandResult ev stdout stderr timedOut startedAt endAt).exitCode == 0)) ∧
    (∀ (message stdout stderr : String) (timedOut : Bool) (startedAt endAt : Nat),
      runCommandResult (.errorEvt message) stdout stderr timedOut startedAt endAt =
        { ok := false
          exitCode := -1
          stdout := stdout
          stderr := strTrim (stderr ++ "\n" ++ message)
          timedOut := timedOut
          durationMs := (endAt : Int) - (startedAt : Int) }) := by
  constructor
  · intro ev stdout stderr timedOut startedAt endAt
    cases ev with
    | errorEvt message => cases timedOut <;> rfl
    | closeEvt code =>
      cases code with
      | none => cases timedOut <;> rfl
      | some c => cases timedOut <;> rfl
  · intro message stdout stderr timedOut startedAt endAt
    rfl

/-! ## Claim C4 — store write discipline (corrected)

The runs and approvals stores write through a `.tmp` sibling and rename;
the cron store and the config file write their payload directly to the
target.  The claim that all four stores use the `.tmp`-and-rename
discipline is refuted by the cron store's `saveStore`.
-/

/-- C4 counterexample: at a concrete config directory, the cron store's
save plan writes `cron-jobs.json` directly and therefore does not follow
the claimed `.tmp`-and-rename discipline. -/
theorem C4_counterexample :
    writesDirectly (cronSaveStore "/home/user/.trapezohe")
      ("/home/user/.trapezohe" ++ "/cron-jobs.json") ∧
    ¬ atomicReplaceVia (cronSaveStore "/home/user/.trapezohe")
      ("/home/user/.trapezohe" ++ "/cron-jobs.json") := by
  constructor
  · exact ⟨0o600, by simp [cronSaveStore]⟩
  · intro h
    exact h.1 ⟨0o600, by simp [cronSaveStore]⟩

/-- C4 (amended): the runs and approvals stores save atomically — the
payload goes to `target.tmp` which is then renamed over the target, with no
direct write of the target — while the cron store and the config file write
their payload directly to the target file. -/
theorem C4_store_write_discipline (dir : String) :
    atomicReplaceVia (runsWriteStoreNow dir) (dir ++ "/runs.json") ∧
    atomicReplaceVia (approvalsWriteStoreNow dir) (dir ++ "/approvals.json") ∧
    writesDirectly (cronSaveStore dir) (dir ++ "/cron-jobs.json") ∧
    writesDirectly (configSaveConfig dir) (dir ++ "/companion.json") := by
  refine ⟨⟨?_, 1, 5, 0o600, by omega, rfl, rfl⟩, ⟨?_, 1, 3, 0o600, by omega, rfl, rfl⟩,
    ⟨0o600, by simp [cronSaveStore]⟩, ⟨0o600, by simp [configSaveConfig]⟩⟩
  · rintro ⟨m, hm⟩
    simp [runsWriteStoreNow] at hm
    exact append_tmp_ne _ hm.1.symm
  · rintro ⟨m, hm⟩
    simp [approvalsWriteStoreNow] at hm
    exact append_tmp_ne _ hm.1.symm

/-! ## Claim C1 — loopback gating (corrected)

Every matched, non-`OPTIONS` route rejects non-loopback sources with 401.
The claim as stated also covers `OPTIONS` preflight requests, but the
handler answers those with 200 before any check; unmatched paths likewise
get 404 without an authorization check.
-/

/-- C1 counterexample: an `OPTIONS` preflight from a non-loopback address
is answered 200, not 401, even though the claim demands 401 for every
request from a non-loopback source. -/
theorem C1_counterexample :
    isLoopback "203.0.113.7" = false ∧
    companionDispatch "OPTIONS" "/api/runtime/exec" "203.0.113.7" [] 1000
      "Bearer secret" "secret" = .immediate 200 ∧
    Dispatched.immediate 200 ≠ Dispatched.immediate 401 :=
  ⟨rfl, rfl, by decide⟩

/-- C1 (amended): for every request whose method is not `OPTIONS` and whose
method and path match a route of the table, a non-loopback source address
yields status 401 regardless of headers, credentials, or rate-limiter
state.  (`OPTIONS` requests are answered 200 and unmatched requests 404
without an authorization check.) -/
theorem C1_nonloopback_401
    (method pathname addr authHeader token : String)
    (failures : List Nat) (nowv : Nat) (route : String)
    (haddr : isLoopback addr = false)
    (hm : ¬ (method = "OPTIONS"))
    (hr : findRoute method pathname = some route) :
    companionDispatch method pathname addr failures nowv authHeader token
      = .immediate 401 := by
  have hok : (authorize addr failures nowv authHeader token).ok = false := by
    simp [authorize, haddr]
  have hm' : (method == "OPTIONS") = false := by
    simp [String.ext_iff] at hm ⊢
    intro h
    exact hm (by rw [h])
  unfold companionDispatch
  rw [hm']
  simp only [Bool.false_eq_true, if_false]
  rw [hr, hok]
  rfl

/-- C1 witness: a concrete authenticated GET to a matched route from a
public address is rejected with 401. -/
theorem C1_nonloopback_401_witness :
    companionDispatch "GET" "/healthz" "203.0.113.7" [] 1000
      "Bearer secret" "secret" = .immediate 401 :=
  C1_nonloopback_401 "GET" "/healthz" "203.0.113.7" "Bearer secret" "secret" [] 1000
    "healthz" (by rfl) (by decide) (by rfl)

/-! ## Claim C7 — authentication rate limiting -/

/-- C7: from a loopback address, when the pruned 60-second failure window
holds at least 20 entries, `authorize` fails with the distinct rate-limit
message no matter what credentials the request carries, and every matched
non-`OPTIONS` route answers 401; once the window holds fewer than 20
entries, a request with the correct bearer token is authorized and reaches
its handler. -/
theorem C7_rate_limiting
    (addr : String) (failures : List Nat) (nowv : Nat) (authHeader token : String)
    (hloop : isLoopback addr = true) :
    (AUTH_MAX_FAILURES ≤ (pruneAuthFailures failures nowv).length →
      authorize addr failures nowv authHeader token =
        ⟨false, rateLimitMsg, pruneAuthFailures failures nowv⟩ ∧
      rateLimitMsg ≠ invalidTokenMsg ∧ rateLimitMsg ≠ loopbackOnlyMsg) ∧
    ((pruneAuthFailures failures nowv).length < AUTH_MAX_FAILURES →
      safeTokenCompare (extractBearer authHeader) token = true →
      authorize addr failures nowv authHeader token =
        ⟨true, "", pruneAuthFailures failures nowv⟩) ∧
    (∀ method pathname route,
      findRoute method pathname = some route → ¬ (method = "OPTIONS") →
      AUTH_MAX_FAILURES ≤ (pruneAuthFailures failures nowv).length →
      companionDispatch method pathname addr failures nowv authHeader token
        = .immediate 401) ∧
    (∀ method pathname route,
      findRoute method pathname = some route → ¬ (method = "OPTIONS") →
      (pruneAuthFailures failures nowv).length < AUTH_MAX_FAILURES →
      safeTokenCompare (extractBearer authHeader) token = true →
      companionDispatch method pathname addr failures nowv authHeader token
        = .handled route) := by
  have hauth_lim : AUTH_MAX_FAILURES ≤ (pruneAuthFailures failures nowv).length →
      authorize addr failures nowv authHeader token =
        ⟨false, rateLimitMsg, pruneAuthFailures failures nowv⟩ := by
    intro hlim
    simp only [authorize, hloop, Bool.not_true, Bool.false_eq_true, if_false]
    rw [if_pos hlim]
  have hauth_ok : (pruneAuthFailures failures nowv).length < AUTH_MAX_FAILURES →
      safeTokenCompare (extractBearer authHeader) token = true →
      authorize addr failures nowv authHeader token =
        ⟨true, "", pruneAuthFailures failures nowv⟩ := by
    intro hlt htok
    simp only [authorize, hloop, Bool.not_true, Bool.false_eq_true, if_false]
    rw [if_neg (by omega), htok]
    simp
  refine ⟨fun hlim => ⟨hauth_lim hlim, by decide, by decide⟩, hauth_ok, ?_, ?_⟩
  · intro method pathname route hr hm hlim
    have hm' : (method == "OPTIONS") = false := by
      simp [String.ext_iff] at hm ⊢
      intro h
      exact hm (by rw [h])
    unfold companionDispatch
    rw [hm']
    simp only [Bool.false_eq_true, if_false]
    rw [hr, hauth_lim hlim]
    rfl
  · intro method pathname route hr hm hlt htok
    have hm' : (method == "OPTIONS") = false := by
      simp [String.ext_iff] at hm ⊢
      intro h
      exact hm (by rw [h])
    unfold companionDispatch
    rw [hm']
    simp only [Bool.false_eq_true, if_false]
    rw [hr, hauth_ok hlt htok]
    rfl

/-- C7 witness: with twenty failures in the window, a correctly
authenticated request to a matched route is answered 401; with an empty
window the same request succeeds. -/
theorem C7_rate_limiting_witness :
    companionDispatch "GET" "/api/runtime/runs" "127.0.0.1" (List.replicate 20 500) 1000
      "Bearer tok" "tok" = .immediate 401 ∧
    companionDispatch "GET" "/api/runtime/runs" "127.0.0.1" [] 1000
      "Bearer tok" "tok" = .handled "runList" :=
  ⟨(C7_rate_limiting "127.0.0.1" (List.replicate 20 500) 1000 "Bearer tok" "tok"
      (by rfl)).2.2.1 "GET" "/api/runtime/runs" "runList" (by rfl) (by decide) (by decide),
   (C7_rate_limiting "127.0.0.1" [] 1000 "Bearer tok" "tok"
      (by rfl)).2.2.2 "GET" "/api/runtime/runs" "runList" (by rfl) (by decide) (by decide)
      (by decide)⟩

/-! ## Claim C2 — workspace path containment (corrected)

The source's `looksLikePath` additionally excludes values that start with
`-` (option-flag look-alikes), which the spec's path-like test does not.
A flag-shaped token can smuggle `..` segments past the analysis: with root
`/ws` and cwd `/ws`, the command `ls -p/../../etc` is accepted although its
token `-p/../../etc` is path-like by the spec's test and resolves against
cwd to `/etc`, outside every root.  For candidates that do not start with
`-`, the containment holds.
-/

/-- A spec-path-like value that does not start with `-` passes the source's
`looksLikePath`. -/
theorem spec_nondash_looksLikePath (v : String)
    (hspec : specPathLike v = true) (hdash : strStartsWith v "-" = false) :
    looksLikePath v = true := by
  have hne : ¬ (v = "") := by
    intro h
    subst h
    exact absurd hspec (by decide)
  have hbeq : (v == "") = false := beq_eq_false_iff_ne.mpr hne
  unfold looksLikePath
  unfold specPathLike at hspec
  rw [hbeq, hdash, hspec]
  rfl

/-- A `looksLikePath` candidate always normalizes to some absolute path. -/
theorem looks_normalize_some (cand cwd home processCwd : String)
    (h : looksLikePath cand = true) :
    ∃ p, normalizeCandidateToAbsolute cand cwd home processCwd = some p := by
  unfold normalizeCandidateToAbsolute
  rw [h]
  simp only [Bool.not_true, Bool.false_eq_true, if_false]
  split
  · exact ⟨_, rfl⟩
  · split
    · exact ⟨_, rfl⟩
    · exact ⟨_, rfl⟩

/-- An accepted workspace command has an empty violation scan. -/
theorem enforce_ok_firstEscape_none
    (command cwd : String) (pin : PolicyInput) (home processCwd : String)
    (hmode : (normalizePermissionPolicy pin home processCwd).mode = "workspace")
    (hok : enforceCommandPolicy command cwd pin home processCwd = .ok ()) :
    firstEscape command cwd home processCwd
      (normalizePermissionPolicy pin home processCwd).workspaceRoots = none := by
  simp only [enforceCommandPolicy] at hok
  rw [hmode, if_neg (by decide)] at hok
  cases hb : blockedReason command with
  | some r => rw [hb] at hok; cases hok
  | none =>
    rw [hb] at hok
    cases hd : dangerousReason command with
    | some r => rw [hd] at hok; cases hok
    | none =>
      rw [hd] at hok
      cases hf : firstEscape command cwd home processCwd
          (normalizePermissionPolicy pin home processCwd).workspaceRoots with
      | some c => rw [hf] at hok; cases hok
      | none => exact rfl

/-- C2 counterexample: `ls -p/../../etc` is accepted by
`enforceCommandPolicy` in workspace mode with root `/ws` and cwd `/ws`,
yet its token `-p/../../etc` is path-like by the spec's test, contains no
`://`, and resolves against cwd to `/etc`, which is outside every root. -/
theorem C2_counterexample :
    enforceCommandPolicy "ls -p/../../etc" "/ws"
      ⟨some "workspace", ["/ws"]⟩ "/home/u" "/srv" = .ok () ∧
    splitSubCommands "ls -p/../../etc" = ["ls -p/../../etc"] ∧
    shellTokenize "ls -p/../../etc" = ["ls", "-p/../../etc"] ∧
    maybePathCandidates "-p/../../etc" = ["-p/../../etc"] ∧
    specPathLike "-p/../../etc" = true ∧
    strContainsSub "-p/../../etc" "://" = false ∧
    specResolve "-p/../../etc" "/ws" "/home/u" = "/etc" ∧
    (normalizePermissionPolicy ⟨some "workspace", ["/ws"]⟩ "/home/u" "/srv").workspaceRoots
      = ["/ws"] ∧
    isPathWithinRoots "/etc" ["/ws"] = false :=
  ⟨rfl, by decide, by decide, by decide, by decide, by decide, by decide, by decide, by decide⟩

/-- C2 (amended): in workspace mode, for every command accepted by
`enforceCommandPolicy`, every candidate of every token of every sub-command
that is path-like per the spec's test and does not begin with `-` (the
source exempts flag-shaped tokens) normalizes — cwd-relative, home-based
for `~/`, absolute kept — to a path within the configured workspace
roots.  (Candidates containing `://` are excluded by
`maybePathCandidates`.) -/
theorem C2_workspace_containment
    (command cwd : String) (pin : PolicyInput) (home processCwd : String)
    (hmode : (normalizePermissionPolicy pin home processCwd).mode = "workspace")
    (hok : enforceCommandPolicy command cwd pin home processCwd = .ok ())
    (sub token cand : String)
    (hsub : sub ∈ splitSubCommands command)
    (htok : token ∈ shellTokenize sub)
    (hcand : cand ∈ maybePathCandidates token)
    (hspec : specPathLike cand = true)
    (hdash : strStartsWith cand "-" = false) :
    ∃ absPath, normalizeCandidateToAbsolute cand cwd home processCwd = some absPath ∧
      isPathWithinRoots absPath
        (normalizePermissionPolicy pin home processCwd).workspaceRoots = true := by
  have hlook : looksLikePath cand = true := spec_nondash_looksLikePath cand hspec hdash
  have hfe := enforce_ok_firstEscape_none command cwd pin home processCwd hmode hok
  unfold firstEscape at hfe
  have h1 := findSome?_none hfe sub hsub
  have h2 := findSome?_none h1 token htok
  have h3 := findSome?_none h2 cand hcand
  obtain ⟨p, hp⟩ := looks_normalize_some cand cwd home processCwd hlook
  refine ⟨p, hp, ?_⟩
  unfold checkCandidate at h3
  rw [hp] at h3
  have h4 : (if isPathWithinRoots p
      (normalizePermissionPolicy pin home processCwd).workspaceRoots = true
      then (none : Option String) else some cand) = none := h3
  by_cases hw : isPathWithinRoots p
      (normalizePermissionPolicy pin home processCwd).workspaceRoots = true
  · exact hw
  · rw [if_neg hw] at h4
    cases h4

/-- C2 witness: the accepted command `cat ./notes.txt` with root `/ws` has
its candidate `./notes.txt` resolve inside the roots. -/
theorem C2_workspace_containment_witness :
    ∃ absPath, normalizeCandidateToAbsolute "./notes.txt" "/ws" "/home/u" "/srv"
        = some absPath ∧
      isPathWithinRoots absPath
        (normalizePermissionPolicy ⟨some "workspace", ["/ws"]⟩ "/home/u" "/srv").workspaceRoots
        = true :=
  C2_workspace_containment "cat ./notes.txt" "/ws" ⟨some "workspace", ["/ws"]⟩ "/home/u" "/srv"
    (by decide) (by rfl) "cat ./notes.txt" "./notes.txt" "./notes.txt"
    (by decide) (by decide) (by decide) (by decide) (by decide)

/-! ## Claims C5 and C10 — approval lifecycle -/

/-- Reading an updated list at any position (restatement of
`List.getElem?_set` in the orientation used below). -/
theorem getElem?_set_reading {α : Type} (l : List α) (i j : Nat) (x : α) :
    (l.set i x)[j]? = if i = j then (if i < l.length then some x else none) else l[j]? :=
  List.getElem?_set

/-- Record produced by `resolveApproval` for a pending record. -/
def resolvedRecord (current : ApprovalRecord) (resolution : String)
    (resolvedBy : Option String) (nowv : Nat) : ApprovalRecord :=
  { current with
    status := if VALID_STATUSES.contains resolution then resolution else "rejected"
    resolvedAt := some nowv
    resolvedBy :=
      match resolvedBy with
      | some rb => if rb == "" then current.resolvedBy else some (strTake rb 100)
      | none => current.resolvedBy }

/-- Unfolding of `resolveApproval` on a pending record. -/
theorem resolveApproval_pending_eq
    (store : List ApprovalRecord) (requestId resolution : String)
    (resolvedBy : Option String) (nowv : Nat) (index : Nat) (current : ApprovalRecord)
    (hid : ¬ (strTrim requestId = ""))
    (hfind : store.findIdx? (fun a => a.requestId == strTrim requestId) = some index)
    (hget : store[index]? = some current)
    (hpend : current.status = "pending") :
    resolveApproval store requestId resolution resolvedBy nowv =
      (some (resolvedRecord current resolution resolvedBy nowv),
       store.set index (resolvedRecord current resolution resolvedBy nowv)) := by
  have hbeq : (strTrim requestId == "") = false := beq_eq_false_iff_ne.mpr hid
  have hpb : (current.status == "pending") = true := by rw [hpend]; rfl
  simp only [resolveApproval, hbeq, Bool.false_eq_true, if_false, hfind, hget, hpb,
    Bool.not_true, resolvedRecord]

/-- Unfolding of `resolveApproval` on a record that is not pending. -/
theorem resolveApproval_resolved_eq
    (store : List ApprovalRecord) (requestId resolution : String)
    (resolvedBy : Option String) (nowv : Nat) (index : Nat) (current : ApprovalRecord)
    (hid : ¬ (strTrim requestId = ""))
    (hfind : store.findIdx? (fun a => a.requestId == strTrim requestId) = some index)
    (hget : store[index]? = some current)
    (hstat : ¬ (current.status = "pending")) :
    resolveApproval store requestId resolution resolvedBy nowv = (some current, store) := by
  have hbeq : (strTrim requestId == "") = false := beq_eq_false_iff_ne.mpr hid
  have hpb : (current.status == "pending") = false := beq_eq_false_iff_ne.mpr hstat
  simp only [resolveApproval, hbeq, Bool.false_eq_true, if_false, hfind, hget, hpb,
    Bool.not_false, if_true]

/-- The second component of `resolveApproval` is the store itself or a
single-position update of a pending record. -/
theorem resolveApproval_store_cases
    (store : List ApprovalRecord) (requestId resolution : String)
    (resolvedBy : Option String) (nowv : Nat) :
    (resolveApproval store requestId resolution resolvedBy nowv).2 = store ∨
    ∃ index current,
      store[index]? = some current ∧ current.status = "pending" ∧
      (resolveApproval store requestId resolution resolvedBy nowv).2 =
        store.set index (resolvedRecord current resolution resolvedBy nowv) := by
  by_cases hid : (strTrim requestId == "") = true
  · left
    simp only [resolveApproval, hid, if_true]
  · have hbeq : (strTrim requestId == "") = false := by
      cases h : (strTrim requestId == "") with
      | true => exact absurd h hid
      | false => rfl
    cases hfind : store.findIdx? (fun a => a.requestId == strTrim requestId) with
    | none => left; simp only [resolveApproval, hbeq, Bool.false_eq_true, if_false, hfind]
    | some index =>
      cases hget : store[index]? with
      | none => left; simp only [resolveApproval, hbeq, Bool.false_eq_true, if_false, hfind, hget]
      | some current =>
        by_cases hpend : current.status = "pending"
        · right
          refine ⟨index, current, hget, hpend, ?_⟩
          have hpb : (current.status == "pending") = true := by rw [hpend]; rfl
          simp only [resolveApproval, hbeq, Bool.false_eq_true, if_false, hfind, hget, hpb,
            Bool.not_true, resolvedRecord]
        · left
          have hpb : (current.status == "pending") = false := beq_eq_false_iff_ne.mpr hpend
          simp only [resolveApproval, hbeq, Bool.false_eq_true, if_false, hfind, hget, hpb,
            Bool.not_false, if_true]

/-- C5: the only status changes performed by `resolveApproval` and
`expireOverdueApprovals` take a pending record to approved, rejected or
expired; `resolveApproval` on a record that is no longer pending returns
the record as-is and leaves the store untouched. -/
theorem C5_approval_transitions :
    (∀ (store : List ApprovalRecord) (requestId resolution : String)
        (resolvedBy : Option String) (nowv : Nat) (i : Nat) (a a' : ApprovalRecord),
      store[i]? = some a →
      ((resolveApproval store requestId resolution resolvedBy nowv).2)[i]? = some a' →
      ¬ (a.status = a'.status) →
      a.status = "pending" ∧
        (a'.status = "approved" ∨ a'.status = "rejected" ∨ a'.status = "expired")) ∧
    (∀ (store : List ApprovalRecord) (nowv : Nat) (i : Nat) (a a' : ApprovalRecord),
      store[i]? = some a →
      (expireOverdueApprovals store nowv)[i]? = some a' →
      ¬ (a.status = a'.status) →
      a.status = "pending" ∧ a'.status = "expired") ∧
    (∀ (store : List ApprovalRecord) (requestId resolution : String)
        (resolvedBy : Option String) (nowv : Nat) (index : Nat) (current : ApprovalRecord),
      ¬ (strTrim requestId = "") →
      store.findIdx? (fun a => a.requestId == strTrim requestId) = some index →
      store[index]? = some current →
      ¬ (current.status = "pending") →
      resolveApproval store requestId resolution resolvedBy nowv = (some current, store)) := by
  refine ⟨?_, ?_, ?_⟩
  · intro store requestId resolution resolvedBy nowv i a a' ha ha' hne
    rcases resolveApproval_store_cases store requestId resolution resolvedBy nowv with
      hsame | ⟨index, current, hget, hpend, hset⟩
    · rw [hsame, ha] at ha'
      injection ha' with h
      exact absurd (h ▸ rfl) hne
    · rw [hset, getElem?_set_reading] at ha'
      by_cases hij : index = i
      · subst hij
        have hlen : index < store.length := by
          rcases List.getElem?_eq_some.mp hget with ⟨hlt, -⟩
          exact hlt
        rw [if_pos rfl, if_pos hlen] at ha'
        injection ha' with h
        have hac : a = current := by
          rw [ha] at hget
          exact Option.some.inj hget
        have hstat : a'.status =
            (if VALID_STATUSES.contains resolution then resolution else "rejected") := by
          rw [← h]
          rfl
        have hap : a.status = "pending" := by rw [hac]; exact hpend
        refine ⟨hap, ?_⟩
        by_cases hv : VALID_STATUSES.contains resolution = true
        · rw [if_pos hv] at hstat
          have hmem : resolution ∈ VALID_STATUSES := by
            rcases List.contains_iff_exists_mem_beq.mp hv with ⟨x, hx, hxb⟩
            have hrx : resolution = x := eq_of_beq hxb
            rw [hrx]
            exact hx
          simp only [VALID_STATUSES, List.mem_cons, List.not_mem_nil, or_false] at hmem
          rcases hmem with hm | hm | hm | hm
          · exfalso
            apply hne
            rw [hstat, hm, hap]
          · left; rw [hstat, hm]
          · right; left; rw [hstat, hm]
          · right; right; rw [hstat, hm]
        · rw [if_neg hv] at hstat
          right; left; exact hstat
      · rw [if_neg hij, ha] at ha'
        injection ha' with h
        exact absurd (h ▸ rfl) hne
  · intro store nowv i a a' ha ha' hne
    unfold expireOverdueApprovals at ha'
    rw [List.getElem?_map, ha] at ha'
    have h : (if a.status == "pending" && decide (a.expiresAt ≤ nowv) then
        { a with status := "expired", resolvedAt := some nowv } else a) = a' :=
      Option.some.inj ha'
    by_cases hc : (a.status == "pending" && decide (a.expiresAt ≤ nowv)) = true
    · rw [if_pos hc] at h
      have hp : a.status = "pending" := by
        have hand := (Bool.and_eq_true _ _).mp hc
        exact eq_of_beq hand.1
      constructor
      · exact hp
      · rw [← h]
    · rw [if_neg hc] at h
      exact absurd (congrArg ApprovalRecord.status h) hne
  · intro store requestId resolution resolvedBy nowv index current hid hfind hget hstat
    exact resolveApproval_resolved_eq store requestId resolution resolvedBy nowv index current
      hid hfind hget hstat

/-- C5 witness: a second resolve on an already-approved record returns the
record unchanged and leaves the store as it was. -/
theorem C5_approval_transitions_witness :
    resolveApproval
      [{ requestId := "r1", conversationId := "c", toolName := "t", toolPreview := "p",
         riskLevel := "low", channels := ["sidepanel"], status := "approved",
         createdAt := 10, expiresAt := 100, resolvedAt := some 20,
         resolvedBy := some "user" }]
      "r1" "rejected" none 50 =
    (some { requestId := "r1", conversationId := "c", toolName := "t", toolPreview := "p",
            riskLevel := "low", channels := ["sidepanel"], status := "approved",
            createdAt := 10, expiresAt := 100, resolvedAt := some 20,
            resolvedBy := some "user" },
     [{ requestId := "r1", conversationId := "c", toolName := "t", toolPreview := "p",
        riskLevel := "low", channels := ["sidepanel"], status := "approved",
        createdAt := 10, expiresAt := 100, resolvedAt := some 20,
        resolvedBy := some "user" }]) :=
  C5_approval_transitions.2.2
    [{ requestId := "r1", conversationId := "c", toolName := "t", toolPreview := "p",
       riskLevel := "low", channels := ["sidepanel"], status := "approved",
       createdAt := 10, expiresAt := 100, resolvedAt := some 20,
       resolvedBy := some "user" }]
    "r1" "rejected" none 50 0
    { requestId := "r1", conversationId := "c", toolName := "t", toolPreview := "p",
      riskLevel := "low", channels := ["sidepanel"], status := "approved",
      createdAt := 10, expiresAt := 100, resolvedAt := some 20,
      resolvedBy := some "user" }
    (by decide) (by decide) (by decide) (by decide)

/-- C10: on a pending record, `resolveApproval` installs the requested
resolution when it is one of pending/approved/rejected/expired and
`rejected` otherwise, always stamping `resolvedAt` with the current time;
in particular the string `pending` is accepted and leaves the status
pending while setting `resolvedAt`; and the HTTP handler substitutes
`rejected` for an absent (or empty, hence falsy) body resolution. -/
theorem C10_resolution_semantics
    (store : List ApprovalRecord) (requestId resolution : String)
    (resolvedBy : Option String) (nowv : Nat) (index : Nat) (current : ApprovalRecord)
    (hid : ¬ (strTrim requestId = ""))
    (hfind : store.findIdx? (fun a => a.requestId == strTrim requestId) = some index)
    (hget : store[index]? = some current)
    (hpend : current.status = "pending") :
    ((resolveApproval store requestId resolution resolvedBy nowv).1 =
      some (resolvedRecord current resolution resolvedBy nowv) ∧
     (resolvedRecord current resolution resolvedBy nowv).status =
        (if resolution ∈ VALID_STATUSES then resolution else "rejected") ∧
     (resolvedRecord current resolution resolvedBy nowv).resolvedAt = some nowv) ∧
    (resolution = "pending" →
      (resolvedRecord current resolution resolvedBy nowv).status = "pending") ∧
    resolutionOrDefault none = "rejected" ∧
    resolutionOrDefault (some "") = "rejected" := by
  have hmain := resolveApproval_pending_eq store requestId resolution resolvedBy nowv index
    current hid hfind hget hpend
  refine ⟨⟨?_, ?_, rfl⟩, ?_, rfl, rfl⟩
  · rw [hmain]
  · show (if VALID_STATUSES.contains resolution then resolution else "rejected") = _
    by_cases hv : VALID_STATUSES.contains resolution = true
    · rw [if_pos hv, if_pos]
      rcases List.contains_iff_exists_mem_beq.mp hv with ⟨x, hx, hxb⟩
      have hrx : resolution = x := eq_of_beq hxb
      rw [hrx]
      exact hx
    · rw [if_neg hv, if_neg]
      intro hmem
      exact hv (List.contains_iff_exists_mem_beq.mpr ⟨resolution, hmem, by simp⟩)
  · intro h
    subst h
    rfl

/-- C10 witness: resolving a concrete pending record with the string
`pending` keeps the status pending and stamps `resolvedAt`. -/
theorem C10_resolution_semantics_witness :
    (resolveApproval
      [{ requestId := "r2", conversationId := "c", toolName := "t", toolPreview := "p",
         riskLevel := "low", channels := ["sidepanel"], status := "pending",
         createdAt := 10, expiresAt := 100 }]
      "r2" "pending" none 42).1 =
      some { requestId := "r2", conversationId := "c", toolName := "t", toolPreview := "p",
             riskLevel := "low", channels := ["sidepanel"], status := "pending",
             createdAt := 10, expiresAt := 100, resolvedAt := some 42 } := by
  have h := C10_resolution_semantics
    [{ requestId := "r2", conversationId := "c", toolName := "t", toolPreview := "p",
       riskLevel := "low", channels := ["sidepanel"], status := "pending",
       createdAt := 10, expiresAt := 100 }]
    "r2" "pending" none 42 0
    { requestId := "r2", conversationId := "c", toolName := "t", toolPreview := "p",
      riskLevel := "low", channels := ["sidepanel"], status := "pending",
      createdAt := 10, expiresAt := 100 }
    (by decide) (by decide) (by decide) (by decide)
  rw [h.1.1]
  rfl

/-! ## Claim C8 — `updateRun` timestamp auto-fill -/

/-- A nonnegative timestamp normalizes to itself. -/
theorem normTs_ofNat (f : Nat) : normalizeTimestamp (some (Int.ofNat f)) = some f := by
  simp only [normalizeTimestamp, Option.some.injEq]
  rw [show Int.ofNat f = (f : Int) from rfl, max_eq_right (Int.natCast_nonneg f)]
  omega

/-- The normalized record's timestamps are the normalized input
timestamps. -/
theorem normalizeRun_fields (input : RunInput) (nowv : Nat) (next : RunEnvelope)
    (h : normalizeRun input nowv = some next) :
    next.state = normalizeState input.state
      (match normalizeTimestamp input.finishedAt with
       | some f => if !(f == 0) && (normalizeTimestamp input.startedAt).isSome
                   then "done" else "failed"
       | none => "queued") ∧
    next.startedAt = normalizeTimestamp input.startedAt ∧
    next.finishedAt = normalizeTimestamp input.finishedAt := by
  simp only [normalizeRun] at h
  by_cases hb : (strTrim (input.runId.getD "") == "") = true
  · rw [if_pos hb] at h
    cases h
  · rw [if_neg hb] at h
    have h2 := Option.some.inj h
    subst h2
    exact ⟨rfl, rfl, rfl⟩

/-- C8: a run update whose resulting state is `done` or `failed` has
`finishedAt` set, namely to the update timestamp when neither the patch nor
the current record supplies one; a resulting state of `running` or
`retrying` likewise fills `startedAt`; and timestamps already present on
the record are preserved when the patch omits them. -/
theorem C8_updateRun_autofill
    (store : List RunEnvelope) (runId : String) (patch : RunInput) (nowv : Nat)
    (index : Nat) (current : RunEnvelope) (r : RunEnvelope) (store' : List RunEnvelope)
    (hid : ¬ (strTrim runId = ""))
    (hfind : store.findIdx? (fun run => run.runId == strTrim runId) = some index)
    (hget : store[index]? = some current)
    (hupd : updateRun store runId patch nowv = (some r, store')) :
    ((r.state = "done" ∨ r.state = "failed") →
      r.finishedAt.isSome = true ∧
      (patch.finishedAt = none → current.finishedAt = none → r.finishedAt = some nowv)) ∧
    ((r.state = "running" ∨ r.state = "retrying") →
      r.startedAt.isSome = true ∧
      (patch.startedAt = none → current.startedAt = none → r.startedAt = some nowv)) ∧
    (patch.finishedAt = none → ∀ f, current.finishedAt = some f → r.finishedAt = some f) ∧
    (patch.startedAt = none → ∀ s, current.startedAt = some s → r.startedAt = some s) := by
  have hbeq : (strTrim runId == "") = false := beq_eq_false_iff_ne.mpr hid
  simp only [updateRun, hbeq, Bool.false_eq_true, if_false, hfind, hget] at hupd
  cases hnorm : normalizeRun (mergePatch current patch nowv) nowv with
  | none =>
    rw [hnorm] at hupd
    simp at hupd
  | some next =>
    rw [hnorm] at hupd
    have hr : r =
        { next with
          finishedAt :=
            if (next.state == "done" || next.state == "failed")
                && next.finishedAt.isNone then some nowv
            else next.finishedAt
          startedAt :=
            if (next.state == "running" || next.state == "retrying")
                && next.startedAt.isNone then some nowv
            else next.startedAt } := by
      have hfst := congrArg Prod.fst hupd
      exact (Option.some.inj hfst).symm
    have hfields := normalizeRun_fields (mergePatch current patch nowv) nowv next hnorm
    refine ⟨?_, ?_, ?_, ?_⟩
    · intro hst
      have hns : next.state = "done" ∨ next.state = "failed" := by
        rw [hr] at hst
        exact hst
      have hb : (next.state == "done" || next.state == "failed") = true := by
        rcases hns with h | h <;> rw [h] <;> rfl
      cases hnf : next.finishedAt with
      | none =>
        have hcond : ((next.state == "done" || next.state == "failed")
            && next.finishedAt.isNone) = true := by
          rw [hb, hnf]
          rfl
        have hfin : r.finishedAt = some nowv := by
          rw [hr]
          show (if _ then some nowv else next.finishedAt) = some nowv
          rw [if_pos hcond]
        rw [hfin]
        exact ⟨rfl, fun _ _ => rfl⟩
      | some f =>
        have hcond : ((next.state == "done" || next.state == "failed")
            && next.finishedAt.isNone) = false := by
          rw [hnf]
          simp
        have hfin : r.finishedAt = some f := by
          rw [hr]
          show (if _ then some nowv else next.finishedAt) = some f
          rw [if_neg (by rw [hcond]; exact Bool.false_ne_true), hnf]
        rw [hfin]
        refine ⟨rfl, fun hpf hcf => ?_⟩
        have : next.finishedAt = none := by
          rw [hfields.2.2]
          show normalizeTimestamp (patch.finishedAt <|> current.finishedAt.map Int.ofNat) = none
          rw [hpf, hcf]
          rfl
        rw [this] at hnf
        cases hnf
    · intro hst
      have hns : next.state = "running" ∨ next.state = "retrying" := by
        rw [hr] at hst
        exact hst
      have hb : (next.state == "running" || next.state == "retrying") = true := by
        rcases hns with h | h <;> rw [h] <;> rfl
      cases hnf : next.startedAt with
      | none =>
        have hcond : ((next.state == "running" || next.state == "retrying")
            && next.startedAt.isNone) = true := by
          rw [hb, hnf]
          rfl
        have hfin : r.startedAt = some nowv := by
          rw [hr]
          show (if _ then some nowv else next.startedAt) = some nowv
          rw [if_pos hcond]
        rw [hfin]
        exact ⟨rfl, fun _ _ => rfl⟩
      | some s =>
        have hcond : ((next.state == "running" || next.state == "retrying")
            && next.startedAt.isNone) = false := by
          rw [hnf]
          simp
        have hfin : r.startedAt = some s := by
          rw [hr]
          show (if _ then some nowv else next.startedAt) = some s
          rw [if_neg (by rw [hcond]; exact Bool.false_ne_true), hnf]
        rw [hfin]
        refine ⟨rfl, fun hpf hcf => ?_⟩
        have : next.startedAt = none := by
          rw [hfields.2.1]
          show normalizeTimestamp (patch.startedAt <|> current.startedAt.map Int.ofNat) = none
          rw [hpf, hcf]
          rfl
        rw [this] at hnf
        cases hnf
    · intro hpf f hcf
      have hnf : next.finishedAt = some f := by
        rw [hfields.2.2]
        show normalizeTimestamp (patch.finishedAt <|> current.finishedAt.map Int.ofNat) = some f
        rw [hpf, hcf]
        exact normTs_ofNat f
      rw [hr]
      show (if _ && next.finishedAt.isNone then some nowv else next.finishedAt) = some f
      rw [hnf]
      simp
    · intro hps s hcs
      have hns : next.startedAt = some s := by
        rw [hfields.2.1]
        show normalizeTimestamp (patch.startedAt <|> current.startedAt.map Int.ofNat) = some s
        rw [hps, hcs]
        exact normTs_ofNat s
      rw [hr]
      show (if _ && next.startedAt.isNone then some nowv else next.startedAt) = some s
      rw [hns]
      simp

/-- Demo run for the C8 witness. -/
def demoRun : RunEnvelope :=
  { runId := "r1", type := "exec", state := "running", createdAt := 5, updatedAt := 5,
    startedAt := some 5 }

/-- Demo patch for the C8 witness: move to `done` without timestamps. -/
def demoPatch : RunInput := { state := some "done" }

/-- Result record of the C8 witness update. -/
def demoUpdated : RunEnvelope :=
  { runId := "r1", type := "exec", state := "done", createdAt := 5, updatedAt := 9,
    startedAt := some 5, finishedAt := some 9 }

/-- C8 witness: updating a running record to `done` at time 9 fills
`finishedAt := 9` and preserves `startedAt := 5`. -/
theorem C8_updateRun_autofill_witness :
    demoUpdated.finishedAt = some 9 ∧ demoUpdated.startedAt = some 5 :=
  have h := C8_updateRun_autofill [demoRun] "r1" demoPatch 9 0 demoRun demoUpdated
    [demoUpdated] (by decide) (by decide) (by decide) (by rfl)
  ⟨(h.1 (Or.inl rfl)).2 rfl rfl, h.2.2.2 rfl 5 rfl⟩

/-! ## Claim C9 — session-event cursors (corrected)

Within any run of emits, cursors are assigned strictly increasingly and
`listSessionEvents` filters and orders correctly.  The claim's "cursors are
never reused" fails across `cleanupAllSessions`, which resets
`nextSessionEventCursor` to 1 (it runs at server shutdown and is exported):
an emit, a cleanup, and another emit assign the cursor 1 twice.
-/

/-- Membership through `insertByCursor`. -/
theorem mem_insertByCursor (e x : SessionEvent) :
    ∀ l : List SessionEvent, x ∈ insertByCursor e l ↔ x = e ∨ x ∈ l := by
  intro l
  induction l with
  | nil => simp [insertByCursor]
  | cons y rest ih =>
    rw [insertByCursor]
    by_cases hc : e.cursor ≤ y.cursor
    · rw [if_pos hc]
      simp
    · rw [if_neg hc]
      simp only [List.mem_cons, ih]
      tauto

/-- `insertByCursor` preserves sortedness by cursor. -/
theorem pairwise_insertByCursor (e : SessionEvent) :
    ∀ l : List SessionEvent, l.Pairwise (fun a b => a.cursor ≤ b.cursor) →
      (insertByCursor e l).Pairwise (fun a b => a.cursor ≤ b.cursor) := by
  intro l
  induction l with
  | nil =>
    intro _
    simp [insertByCursor]
  | cons x rest ih =>
    intro h
    rcases List.pairwise_cons.mp h with ⟨hx, hrest⟩
    rw [insertByCursor]
    by_cases hc : e.cursor ≤ x.cursor
    · rw [if_pos hc]
      refine List.pairwise_cons.mpr ⟨?_, h⟩
      intro b hb
      rcases List.mem_cons.mp hb with rfl | hb
      · exact hc
      · exact le_trans hc (hx b hb)
    · rw [if_neg hc]
      refine List.pairwise_cons.mpr ⟨?_, ih hrest⟩
      intro b hb
      rcases (mem_insertByCursor e b rest).mp hb with rfl | hb
      · omega
      · exact hx b hb

/-- `sortByCursor` preserves membership. -/
theorem mem_sortByCursor (x : SessionEvent) :
    ∀ l : List SessionEvent, x ∈ sortByCursor l ↔ x ∈ l := by
  intro l
  induction l with
  | nil => simp [sortByCursor]
  | cons y rest ih =>
    rw [sortByCursor]
    rw [mem_insertByCursor]
    simp [ih]

/-- `sortByCursor` sorts ascending by cursor. -/
theorem sortByCursor_sorted :
    ∀ l : List SessionEvent,
      (sortByCursor l).Pairwise (fun a b => a.cursor ≤ b.cursor) := by
  intro l
  induction l with
  | nil => simp [sortByCursor]
  | cons y rest ih =>
    rw [sortByCursor]
    exact pairwise_insertByCursor y (sortByCursor rest) ih

/-- Every cursor assigned along a cleanup-free trace is at least the
starting counter value. -/
theorem assignedCursors_lb :
    ∀ (ops : List LogOp) (st : EventLogState),
      (∀ op ∈ ops, ¬ (op = LogOp.cleanup)) →
      ∀ c ∈ assignedCursors st ops, st.nextCursor ≤ c := by
  intro ops
  induction ops with
  | nil =>
    intro st _ c hc
    cases hc
  | cons op rest ih =>
    intro st h c hc
    cases op with
    | cleanup => exact absurd rfl (h LogOp.cleanup (List.mem_cons_self _ _))
    | emit s n =>
      rw [assignedCursors] at hc
      rcases List.mem_cons.mp hc with rfl | hc
      · exact le_refl _
      · have hnext : (applyLogOp st (LogOp.emit s n)).nextCursor = st.nextCursor + 1 := rfl
        have := ih (applyLogOp st (LogOp.emit s n))
          (fun o ho => h o (List.mem_cons_of_mem _ ho)) c hc
        omega

/-- Along a cleanup-free trace the assigned cursors strictly increase. -/
theorem assignedCursors_strict :
    ∀ (ops : List LogOp) (st : EventLogState),
      (∀ op ∈ ops, ¬ (op = LogOp.cleanup)) →
      (assignedCursors st ops).Pairwise (· < ·) := by
  intro ops
  induction ops with
  | nil =>
    intro st _
    simp [assignedCursors]
  | cons op rest ih =>
    intro st h
    cases op with
    | cleanup => exact absurd rfl (h LogOp.cleanup (List.mem_cons_self _ _))
    | emit s n =>
      rw [assignedCursors]
      refine List.pairwise_cons.mpr
        ⟨?_, ih (applyLogOp st (LogOp.emit s n))
          (fun o ho => h o (List.mem_cons_of_mem _ ho))⟩
      intro c hc
      have hlb := assignedCursors_lb rest (applyLogOp st (LogOp.emit s n))
        (fun o ho => h o (List.mem_cons_of_mem _ ho)) c hc
      have hnext : (applyLogOp st (LogOp.emit s n)).nextCursor = st.nextCursor + 1 := rfl
      omega

/-- Session snapshot used in the C9 trace instances. -/
def demoSession : SessionInfo :=
  { sessionId := "s1", command := "sleep 1", cwd := "/w", timedOut := false,
    exitCode := some 0, startedAt := 10, finishedAt := some 20 }

/-- C9 counterexample: an emit, a `cleanupAllSessions`, and another emit
assign the cursor 1 twice — cursors are reused across a cleanup, refuting
"cursors are never reused". -/
theorem C9_counterexample :
    assignedCursors initialLogState
      [LogOp.emit demoSession 30, LogOp.cleanup, LogOp.emit demoSession 40] = [1, 1] ∧
    ¬ (assignedCursors initialLogState
      [LogOp.emit demoSession 30, LogOp.cleanup, LogOp.emit demoSession 40]).Pairwise
        (· < ·) := by
  constructor
  · rfl
  · intro h
    rw [show assignedCursors initialLogState
      [LogOp.emit demoSession 30, LogOp.cleanup, LogOp.emit demoSession 40]
        = [1, 1] from rfl] at h
    rcases List.pairwise_cons.mp h with ⟨h1, -⟩
    exact absurd (h1 1 (List.mem_singleton.mpr rfl)) (by omega)

/-- C9 (amended): as long as `cleanupAllSessions` does not run, every
`session_exited` event is assigned a cursor strictly greater than all
previously assigned cursors (so cursors are not reused within a server
lifetime); and for every log state, `listSessionEvents(after, limit)`
returns only events whose cursor exceeds the clamped `after`, in ascending
cursor order.  (`cleanupAllSessions` resets the counter to 1, so cursors
restart after it.) -/
theorem C9_event_cursors :
    (∀ (ops : List LogOp), (∀ op ∈ ops, ¬ (op = LogOp.cleanup)) →
      (assignedCursors initialLogState ops).Pairwise (· < ·)) ∧
    (∀ (st : EventLogState) (after limit : Option Int),
      (∀ e ∈ (listSessionEvents st after limit).events,
        (clampInteger after 0 0 MAX_SAFE_INTEGER).toNat < e.cursor) ∧
      (listSessionEvents st after limit).events.Pairwise
        (fun a b => a.cursor ≤ b.cursor)) := by
  constructor
  · intro ops h
    exact assignedCursors_strict ops initialLogState h
  · intro st after limit
    constructor
    · intro e he
      have he1 : e ∈ sortByCursor (st.events.filter
          (fun e => decide ((clampInteger after 0 0 MAX_SAFE_INTEGER).toNat < e.cursor))) :=
        List.mem_of_mem_take he
      have he2 := (mem_sortByCursor e _).mp he1
      have he3 := List.mem_filter.mp he2
      exact of_decide_eq_true he3.2
    · exact List.Pairwise.sublist (List.take_sublist _ _) (sortByCursor_sorted _)

/-- C9 witness: two emits on the initial state get strictly increasing
cursors, and a concrete listing after cursor 1 only returns later
events. -/
theorem C9_event_cursors_witness :
    (assignedCursors initialLogState
      [LogOp.emit demoSession 30, LogOp.emit demoSession 40]).Pairwise (· < ·) ∧
    (∀ e ∈ (listSessionEvents
        (applyLogOp (applyLogOp initialLogState (LogOp.emit demoSession 30))
          (LogOp.emit demoSession 40)) (some 1) (some 10)).events,
      1 < e.cursor) :=
  ⟨C9_event_cursors.1 [LogOp.emit demoSession 30, LogOp.emit demoSession 40] (by decide),
   (C9_event_cursors.2
      (applyLogOp (applyLogOp initialLogState (LogOp.emit demoSession 30))
        (LogOp.emit demoSession 40)) (some 1) (some 10)).1⟩

end Companion
